import Mathlib

/-!
Formal model of the authentication core of the intelli-book-summarizer
repository (source file `backend/auth.py`): registration/login input
validation, password hashing and verification (bcrypt, modelled as an
abstract primitive), the in-process rate-limit ledger, and the user store
(MongoDB with a unique index on `email`, created by `backend/init_db.py`,
modelled as a list of user documents).

Modelling conventions:
- Python strings are Lean `String`s; all character-level work is done on
  `String.data` (a `List Char`) with structural recursion so that every
  definition evaluates by kernel reduction.
- `time.time()` and `datetime.utcnow()` are passed in explicitly as `Int`
  arguments (`now`, `nowUtc`); each public call uses one time instant.
- Python regular expressions are compiled to decision procedures on
  character lists.  Python's `$` anchor matches at the end of the string
  OR just before a trailing newline; `pyDollarMatch` reproduces this.
- bcrypt and the Mongo collection are external effects: they are passed
  in as function parameters whose result type also covers the exceptions
  they can raise (`Option` for bcrypt, `InsertOutcome`/`FindOutcome` for
  the store).  A `raised` / `none` result models an exception flowing to
  the surrounding Python `try`/`except` blocks.
- The module-global `_login_attempts` dict is the `Ledger`, an
  association list threaded through `login_user` explicitly.  Python
  dicts have unique keys; the reachable ledgers here do too.
-/

/-- Python `x or ""` for an optional string (`None` and `""` are falsy). -/
def pyOrEmpty (x : Option String) : String :=
  match x with
  | none => ""
  | some s => s

/-- Python `x or dflt` for an optional string (used for `identifier or email.lower()`). -/
def pyOrStr (x : Option String) (dflt : String) : String :=
  match x with
  | none => dflt
  | some s => if s == "" then dflt else s

/-- Python `not x` truthiness test for an optional string. -/
def pyFalsyStr (x : Option String) : Bool :=
  match x with
  | none => true
  | some s => s == ""

/-- The whitespace characters removed by Python `str.strip()` (ASCII part). -/
def isPySpace (c : Char) : Bool :=
  c == ' ' || c == '\t' || c == '\n' || c == '\x0d' || c == '\x0b' || c == '\x0c'

/-- Python `str.strip()` on the character list: drop whitespace at both ends. -/
def pyStripList (l : List Char) : List Char :=
  ((l.dropWhile isPySpace).reverse.dropWhile isPySpace).reverse

/-- Python `str.strip()`. -/
def pyStrip (s : String) : String :=
  String.mk (pyStripList s.data)

/-- Python `str.lower()` (ASCII case mapping; every string this model
lowercases has already passed the ASCII-only email pattern). -/
def pyLower (s : String) : String :=
  String.mk (s.data.map Char.toLower)

/-- Split a character list on a single separator character, Python
`str.split(sep)` style: `n` separators yield `n+1` (possibly empty) parts. -/
def splitOnChar (sep : Char) (l : List Char) : List (List Char) :=
  match l with
  | [] => [[]]
  | x :: xs =>
    let r := splitOnChar sep xs
    if x == sep then [] :: r
    else
      match r with
      | [] => [[x]]
      | y :: ys => (x :: y) :: ys

/-- Rejoin parts with a dot between them (inverse of splitting on dots). -/
def joinWithDot (ls : List (List Char)) : List Char :=
  match ls with
  | [] => []
  | [x] => x
  | x :: xs => x ++ '.' :: joinWithDot xs

/-- Python `re`: the `$` anchor matches at the end of the input or just
before a newline that ends the input.  Given a whole-input matcher for the
pattern body, this produces the matcher for `body$`. -/
def pyDollarMatch (core : List Char → Bool) (l : List Char) : Bool :=
  core l ||
    (match l.getLast? with
     | some c => c == '\n' && core l.dropLast
     | none => false)

/-- Character class `[a-zA-Z0-9._%+-]` (local part of `EMAIL_REGEX`). -/
def localChar (c : Char) : Bool :=
  c.isUpper || c.isLower || c.isDigit ||
    c == '.' || c == '_' || c == '%' || c == '+' || c == '-'

/-- Character class `[a-zA-Z0-9.-]` (domain part of `EMAIL_REGEX`). -/
def domainChar (c : Char) : Bool :=
  c.isUpper || c.isLower || c.isDigit || c == '.' || c == '-'

/-- Whole-input matcher for `[a-zA-Z0-9.-]+\.[a-zA-Z]{2,}`: the text after
the last dot must be two or more ASCII letters, and everything before that
dot must be a non-empty run of domain characters.  (Any successful split of
the regex must use the last dot, since the trailing letter class excludes
dots.) -/
def domainOk (dom : List Char) : Bool :=
  let parts := splitOnChar '.' dom
  decide (2 ≤ parts.length) &&
    (match parts.getLast? with
     | some t => decide (2 ≤ t.length) && t.all (fun c => c.isUpper || c.isLower)
     | none => false) &&
    (let d := joinWithDot parts.dropLast
     !d.isEmpty && d.all domainChar)

/-- Whole-input matcher for the body of `EMAIL_REGEX`
(`[a-zA-Z0-9._%+-]+@[a-zA-Z0-9.-]+\.[a-zA-Z]{2,}`): exactly one `@` (no
character class contains `@`), a non-empty local part, a valid domain. -/
def emailCore (l : List Char) : Bool :=
  match splitOnChar '@' l with
  | [lp, dom] => !lp.isEmpty && lp.all localChar && domainOk dom
  | _ => false

/-- Model of `EMAIL_REGEX.match(s)`: anchored match of
`^[a-zA-Z0-9._%+-]+@[a-zA-Z0-9.-]+\.[a-zA-Z]{2,}$` with Python `$` semantics. -/
def EMAIL_REGEX_match (s : String) : Bool :=
  pyDollarMatch emailCore s.data

/-- Whole-input matcher for the body of `^[A-Za-z ]+$` (name rule). -/
def nameCore (l : List Char) : Bool :=
  !l.isEmpty && l.all (fun c => c.isUpper || c.isLower || c == ' ')

/-- Model of `re.match(r"^[A-Za-z ]+$", s)` with Python `$` semantics. -/
def namePatternMatch (s : String) : Bool :=
  pyDollarMatch nameCore s.data

/-- The special-character class of the password rule:
`[!@#$%^&*(),.?\":\x7b\x7d|<>]`. -/
def specialChars : List Char :=
  ['!', '@', '#', '$', '%', '^', '&', '*', '(', ')', ',', '.', '?', '\"',
   ':', '\x7b', '\x7d', '|', '<', '>']

/-- Model of `_validate_registration_input(name, email, password)` from
`backend/auth.py`: each rule appends its message independently (no
short-circuiting), so the result is the concatenation of eight guarded
singleton lists, in source order. -/
def _validate_registration_input (name email password : String) : List String :=
  (if name == "" || decide ((pyStrip name).length < 2) then
    ["Name must be at least 2 characters."] else []) ++
  (if !namePatternMatch (pyStrip name) then
    ["Name must contain only letters and spaces."] else []) ++
  (if email == "" || !EMAIL_REGEX_match email then
    ["Invalid email format."] else []) ++
  (if password == "" || decide (password.length < 8) then
    ["Password must be at least 8 characters long."] else []) ++
  (if !password.data.any Char.isUpper then
    ["Password must contain at least 1 uppercase letter."] else []) ++
  (if !password.data.any Char.isLower then
    ["Password must contain at least 1 lowercase letter."] else []) ++
  (if !password.data.any Char.isDigit then
    ["Password must contain at least 1 number."] else []) ++
  (if !password.data.any (fun c => specialChars.contains c) then
    ["Password must contain at least 1 special character."] else [])

/-- Model of `_validate_login_input(email, password)`: email must be truthy and match
`EMAIL_REGEX`, password must be truthy; on failure the pair carries the
generic message (which `login_user` itself replaces with its own literal). -/
def _validate_login_input (email password : Option String) : Bool × Option String :=
  if pyFalsyStr email || !EMAIL_REGEX_match (pyOrEmpty email) then
    (false, some "Invalid credentials.")
  else if pyFalsyStr password then
    (false, some "Invalid credentials.")
  else
    (true, none)

/-- Python `"; ".join(errors)`. -/
def joinSemis : List String → String
  | [] => ""
  | [x] => x
  | x :: xs => x ++ "; " ++ joinSemis xs

example : EMAIL_REGEX_match "a@b.co" = true := by decide
example : EMAIL_REGEX_match "a@b.co\n" = true := by decide
example : EMAIL_REGEX_match "a@b.c" = false := by decide
example : EMAIL_REGEX_match "a@b@c.co" = false := by decide
example : EMAIL_REGEX_match "abc" = false := by decide
example : EMAIL_REGEX_match "@b.co" = false := by decide
example : EMAIL_REGEX_match "a@.co" = false := by decide
example : EMAIL_REGEX_match "a@b..co" = true := by decide
example : EMAIL_REGEX_match "a@b.co " = false := by decide
example : _validate_registration_input "Alice Doe" "a@b.co" "Str0ng!Pw" = [] := by decide
example : _validate_registration_input "" "" "" =
  ["Name must be at least 2 characters.",
   "Name must contain only letters and spaces.",
   "Invalid email format.",
   "Password must be at least 8 characters long.",
   "Password must contain at least 1 uppercase letter.",
   "Password must contain at least 1 lowercase letter.",
   "Password must contain at least 1 number.",
   "Password must contain at least 1 special character."] := by decide
example : pyStrip " a@B.co\n" = "a@B.co" := by decide
example : pyLower "A@B.Co" = "a@b.co" := by decide

/-! Rate-limit ledger (`_login_attempts` module global) -/

/-- The rate-limit ledger: `_login_attempts`, a dict from identifier to the
list of failed-attempt timestamps (association list; keys are unique in
every reachable state). -/
abbrev Ledger := List (String × List Int)

/-- Constant `MAX_LOGIN_ATTEMPTS = 5`. -/
def MAX_LOGIN_ATTEMPTS : Nat := 5

/-- Constant `LOGIN_WINDOW_SECONDS = 15 * 60`. -/
def LOGIN_WINDOW_SECONDS : Int := 15 * 60

/-- Python `d.get(k, dflt)` on the ledger. -/
def dictGetD (m : Ledger) (k : String) (d : List Int) : List Int :=
  match m with
  | [] => d
  | p :: rest => if p.1 == k then p.2 else dictGetD rest k d

/-- Python `d[k] = v` on the ledger: replace the entry in place if the key
is present, otherwise append a new entry at the end. -/
def dictSet (m : Ledger) (k : String) (v : List Int) : Ledger :=
  match m with
  | [] => [(k, v)]
  | p :: rest => if p.1 == k then (k, v) :: rest else p :: dictSet rest k v

/-- Python `d.pop(k, None)` on the ledger: drop the entry for the key. -/
def dictPop (m : Ledger) (k : String) : Ledger :=
  m.filter (fun p => p.1 != k)

/-- Python `k in d` on the ledger. -/
def hasKey (m : Ledger) (k : String) : Bool :=
  m.any (fun p => p.1 == k)

/-- The list comprehension `[ts for ts in attempts if ts >= window_start]`
with `window_start = now - LOGIN_WINDOW_SECONDS`. -/
def inWindow (now : Int) (l : List Int) : List Int :=
  l.filter (fun ts => decide (now - LOGIN_WINDOW_SECONDS ≤ ts))

/-- Model of `_cleanup_attempts(identifier)`: prune the identifier's timestamps to
the trailing window; store the pruned list back if non-empty, otherwise pop
the entry entirely.  `now` is the `time.time()` read at the call. -/
def _cleanup_attempts (now : Int) (identifier : String) (m : Ledger) : Ledger :=
  let attempts := inWindow now (dictGetD m identifier [])
  if attempts.isEmpty then dictPop m identifier else dictSet m identifier attempts

/-- Model of `_record_failed_attempt(identifier)`: append the current timestamp to
the identifier's list, write it back, then prune. -/
def _record_failed_attempt (now : Int) (identifier : String) (m : Ledger) : Ledger :=
  let attempts := dictGetD m identifier [] ++ [now]
  _cleanup_attempts now identifier (dictSet m identifier attempts)

/-- Model of `_is_rate_limited(identifier)`: prune, then compare the remaining count
against `MAX_LOGIN_ATTEMPTS`.  Returns the flag and the pruned ledger (the
prune mutates the module global). -/
def _is_rate_limited (now : Int) (identifier : String) (m : Ledger) : Bool × Ledger :=
  let m2 := _cleanup_attempts now identifier m
  (decide (MAX_LOGIN_ATTEMPTS ≤ (dictGetD m2 identifier []).length), m2)

/-! Data model and external collaborators -/

/-- A persisted user document (`user_doc` built by `register_user`; `id`
is the Mongo `_id`, assigned by the store on insert and empty before). -/
structure UserDoc where
  id : String
  name : String
  email : String
  password_hash : String
  role : String
  created_at : Int
deriving DecidableEq

/-- Projection `user_safe`, the authenticated user view returned on login success:
a projection of the user document with no password-hash field. -/
structure UserSafe where
  user_id : String
  name : String
  email : String
  role : String
  created_at : Int
deriving DecidableEq

/-- The projection building `user_safe` from the found document. -/
def userSafe (u : UserDoc) : UserSafe :=
  { user_id := u.id, name := u.name, email := u.email, role := u.role,
    created_at := u.created_at }

/-- The bcrypt primitive, abstract: `hashpw` and `checkpw`.  A `none`
result models the call raising an exception (e.g. a malformed stored
hash passed to `checkpw`). -/
structure Crypto where
  hashpw : String → Option String
  checkpw : String → String → Option Bool

/-- Result of `users.insert_one`: a new id, `DuplicateKeyError`,
another `PyMongoError`, or some other raised exception. -/
inductive InsertOutcome where
  | ok (id : String)
  | duplicateKey
  | pyMongoError
  | raised
deriving DecidableEq

/-- Result of `users.find_one({"email": ...})`: a document, no match,
a `PyMongoError`, or some other raised exception. -/
inductive FindOutcome where
  | found (u : UserDoc)
  | notFound
  | pyMongoError
  | raised
deriving DecidableEq

/-- The dict returned by `register_user`. -/
structure RegResult where
  success : Bool
  message : String
  user_id : Option String
deriving DecidableEq

/-- The dict returned by `login_user`. -/
structure LoginResult where
  success : Bool
  message : String
  user : Option UserSafe
deriving DecidableEq

/-! Models of `register_user` and `login_user` -/

/-- Model of `register_user(fullName, email, password)` from `backend/auth.py`.
The store is abstract: `ins` is `users.insert_one`, threading a store
state of type `σ`; `nowUtc` is the `datetime.utcnow()` read.  Validation
runs on `fullName or ""` etc.; on the post-validation path those defaulted
values coincide with the originals (a `None` name, email or password
cannot pass validation), so the defaulted values are used throughout.
Exceptional insert outcomes map to the messages of the surrounding
`except` blocks. -/
def register_user {σ : Type} (crypto : Crypto)
    (ins : UserDoc → σ → InsertOutcome × σ) (s0 : σ)
    (fullName email password : Option String) (nowUtc : Int) :
    RegResult × σ :=
  let fn := pyOrEmpty fullName
  let em := pyOrEmpty email
  let pw := pyOrEmpty password
  let errors := _validate_registration_input fn em pw
  if errors.isEmpty then
    match crypto.hashpw pw with
    | none =>
      ({ success := false, message := "Internal error", user_id := none }, s0)
    | some h =>
      let user_doc : UserDoc :=
        { id := "", name := pyStrip fn, email := pyLower (pyStrip em),
          password_hash := h, role := "user", created_at := nowUtc }
      match ins user_doc s0 with
      | (.ok rid, s1) =>
        ({ success := true, message := "User registered successfully",
           user_id := some rid }, s1)
      | (.duplicateKey, s1) =>
        ({ success := false, message := "Email already registered",
           user_id := none }, s1)
      | (.pyMongoError, s1) =>
        ({ success := false, message := "Database error", user_id := none }, s1)
      | (.raised, s1) =>
        ({ success := false, message := "Internal error", user_id := none }, s1)
  else
    ({ success := false, message := "Validation failed: " ++ joinSemis errors,
       user_id := none }, s0)

/-- Model of `login_user(email, password, identifier=None)` from `backend/auth.py`.
`find` is `users.find_one` keyed by the email value; `now` is the
`time.time()` instant of the call; the ledger is threaded explicitly.
A raised find propagates to the outer handlers ("Database error" for
`PyMongoError`, "Internal error" otherwise); a raised `checkpw` is caught
by the inner handler, which records a failed attempt. -/
def login_user (crypto : Crypto) (find : String → FindOutcome)
    (email password identifier : Option String) (now : Int) (ledger : Ledger) :
    LoginResult × Ledger :=
  if (_validate_login_input email password).1 then
    let e := pyOrEmpty email
    let ident := pyOrStr identifier (pyLower e)
    let rl := _is_rate_limited now ident ledger
    if rl.1 then
      ({ success := false, message := "Too many failed attempts. Try again later.",
         user := none }, rl.2)
    else
      match find (pyLower e) with
      | .notFound =>
        ({ success := false, message := "Invalid credentials", user := none },
         _record_failed_attempt now ident rl.2)
      | .found u =>
        (match crypto.checkpw (pyOrEmpty password) u.password_hash with
         | none =>
           ({ success := false, message := "Invalid credentials", user := none },
            _record_failed_attempt now ident rl.2)
         | some false =>
           ({ success := false, message := "Invalid credentials", user := none },
            _record_failed_attempt now ident rl.2)
         | some true =>
           let l2 := if hasKey rl.2 ident then dictPop rl.2 ident else rl.2
           ({ success := true, message := "Login successful",
              user := some (userSafe u) }, l2))
      | .pyMongoError =>
        ({ success := false, message := "Database error", user := none }, rl.2)
      | .raised =>
        ({ success := false, message := "Internal error", user := none }, rl.2)
  else
    ({ success := false, message := "Invalid credentials", user := none }, ledger)

/-! Concrete store model (Mongo `users` collection with the unique
email index created by `backend/init_db.py`) -/

/-- The `users` collection: a list of documents in insertion order. -/
abbrev Store := List UserDoc

/-- Model of `users.insert_one` against the concrete collection: the unique index
on `email` turns an existing email into `DuplicateKeyError`; otherwise a
fresh id is assigned and the document appended. -/
def mongoInsert (d : UserDoc) (store : Store) : InsertOutcome × Store :=
  if store.any (fun u => u.email == d.email) then
    (.duplicateKey, store)
  else
    let rid := "oid" ++ toString store.length
    (.ok rid, store ++ [{ d with id := rid }])

/-- Model of `users.find_one` (by email) against the concrete collection. -/
def mongoFind (store : Store) (e : String) : FindOutcome :=
  match store.find? (fun u => u.email == e) with
  | some u => .found u
  | none => .notFound

/-! Sequences of login calls (for the ledger-bound invariant) -/

/-- One `login_user` invocation: its collaborators, arguments and time. -/
structure LoginCall where
  crypto : Crypto
  find : String → FindOutcome
  email : Option String
  password : Option String
  identifier : Option String
  now : Int

/-- Run a sequence of login calls, threading the ledger. -/
def runLogins (calls : List LoginCall) (m : Ledger) : Ledger :=
  match calls with
  | [] => m
  | c :: rest =>
    runLogins rest (login_user c.crypto c.find c.email c.password c.identifier c.now m).2

/-- Every ledger entry holds at most `n` timestamps. -/
def BoundedBy (n : Nat) (m : Ledger) : Prop :=
  ∀ p ∈ m, p.2.length ≤ n

/-- A concrete bcrypt stand-in used for evaluation: hashing prefixes a
tag, verification compares against the re-tagged password. -/
def cryptoT : Crypto :=
  { hashpw := fun p => some ("h" ++ p),
    checkpw := fun p h => some (h == "h" ++ p) }

example :
    (register_user cryptoT mongoInsert [] (some "Alice Doe") (some "a@b.co")
      (some "Str0ng!Pw") 7).1.success = true := by decide
example :
    (login_user cryptoT
      (mongoFind (register_user cryptoT mongoInsert [] (some "Alice Doe")
        (some "a@b.co") (some "Str0ng!Pw") 7).2)
      (some "a@b.co") (some "Str0ng!Pw") none 10 []).1 =
    { success := true, message := "Login successful",
      user := some { user_id := "oid0", name := "Alice Doe", email := "a@b.co",
                     role := "user", created_at := 7 } } := by decide

/-! Ledger lemmas -/

/-- A guarded singleton is empty exactly when its guard is false. -/
theorem guard_nil (b : Bool) (x : String) :
    (if b then [x] else ([] : List String)) = [] ↔ b = false := by
  cases b <;> simp

/-- Reading back the key just written returns the written value. -/
theorem dictGetD_set_self (m : Ledger) (k : String) (v d : List Int) :
    dictGetD (dictSet m k v) k d = v := by
  induction m with
  | nil => simp [dictSet, dictGetD]
  | cons p rest ih =>
    by_cases hp : p.1 == k
    · simp [dictSet, hp, dictGetD]
    · simp [dictSet, hp, dictGetD, ih]

/-- Writing the same key twice keeps only the second write. -/
theorem dictSet_set_self (m : Ledger) (k : String) (v w : List Int) :
    dictSet (dictSet m k v) k w = dictSet m k w := by
  induction m with
  | nil => simp [dictSet]
  | cons p rest ih =>
    by_cases hp : p.1 == k
    · simp [dictSet, hp]
    · simp [dictSet, hp, ih]

/-- Reading a popped key falls back to the default. -/
theorem dictGetD_pop_self (m : Ledger) (k : String) (d : List Int) :
    dictGetD (dictPop m k) k d = d := by
  induction m with
  | nil => simp [dictPop, dictGetD]
  | cons p rest ih =>
    cases hp : p.1 == k with
    | true =>
      have hb : (p.1 != k) = false := by simp [bne, hp]
      simp only [dictPop, List.filter_cons, hb] at ih ⊢
      simpa using ih
    | false =>
      have hb : (p.1 != k) = true := by simp [bne, hp]
      simp only [dictPop, List.filter_cons, hb, if_true] at ih ⊢
      simp only [dictGetD, hp, Bool.false_eq_true, if_false]
      exact ih

/-- A popped key is no longer present. -/
theorem hasKey_pop_self (m : Ledger) (k : String) :
    hasKey (dictPop m k) k = false := by
  induction m with
  | nil => simp [dictPop, hasKey]
  | cons p rest ih =>
    cases hp : p.1 == k with
    | true =>
      have hb : (p.1 != k) = false := by simp [bne, hp]
      simp only [dictPop, List.filter_cons, hb] at ih ⊢
      simpa using ih
    | false =>
      have hb : (p.1 != k) = true := by simp [bne, hp]
      simp only [dictPop, List.filter_cons, hb, if_true] at ih ⊢
      simp only [hasKey, List.any_cons, hp, Bool.false_or]
      exact ih

/-- Popping twice is popping once. -/
theorem dictPop_pop_self (m : Ledger) (k : String) :
    dictPop (dictPop m k) k = dictPop m k := by
  simp [dictPop, List.filter_filter]

/-- Filtering with the same predicate twice is filtering once. -/
theorem filter_self_idem {α : Type} (p : α → Bool) (l : List α) :
    (l.filter p).filter p = l.filter p := by
  simp [List.filter_filter]

/-- Reading an absent key falls back to the default. -/
theorem dictGetD_of_hasKey_false (m : Ledger) (k : String) (d : List Int)
    (h : hasKey m k = false) : dictGetD m k d = d := by
  induction m with
  | nil => simp [dictGetD]
  | cons p rest ih =>
    simp only [hasKey, List.any_cons, Bool.or_eq_false_iff] at h
    simp only [dictGetD, h.1, if_false]
    exact ih h.2

/-- After pruning, the identifier's entry reads back exactly the in-window
timestamps (the default when they are empty, the written list otherwise). -/
theorem dictGetD_cleanup_self (now : Int) (k : String) (m : Ledger) :
    dictGetD (_cleanup_attempts now k m) k [] = inWindow now (dictGetD m k []) := by
  unfold _cleanup_attempts
  by_cases h : (inWindow now (dictGetD m k [])).isEmpty
  · rw [if_pos h, dictGetD_pop_self, List.isEmpty_iff.mp h]
  · rw [if_neg h, dictGetD_set_self]

/-- Pruning the in-window list changes nothing. -/
theorem inWindow_idem (now : Int) (l : List Int) :
    inWindow now (inWindow now l) = inWindow now l := by
  simp [inWindow, List.filter_filter]

/-- Pruning the same identifier twice at the same instant is pruning once. -/
theorem cleanup_idem (now : Int) (k : String) (m : Ledger) :
    _cleanup_attempts now k (_cleanup_attempts now k m) = _cleanup_attempts now k m := by
  by_cases h : (inWindow now (dictGetD m k [])).isEmpty
  · have h0 : _cleanup_attempts now k m = dictPop m k := by
      unfold _cleanup_attempts; rw [if_pos h]
    rw [h0]
    unfold _cleanup_attempts
    rw [dictGetD_pop_self]
    simp [inWindow, dictPop_pop_self]
  · have h0 : _cleanup_attempts now k m = dictSet m k (inWindow now (dictGetD m k [])) := by
      unfold _cleanup_attempts; rw [if_neg h]
    rw [h0]
    unfold _cleanup_attempts
    rw [dictGetD_set_self, inWindow_idem, if_neg h, dictSet_set_self]

/-- The rate-limit check in closed form: the flag compares the in-window
count to the maximum, and the returned ledger is the pruned one. -/
theorem is_rate_limited_eq (now : Int) (k : String) (m : Ledger) :
    _is_rate_limited now k m =
      (decide (MAX_LOGIN_ATTEMPTS ≤ (inWindow now (dictGetD m k [])).length),
       _cleanup_attempts now k m) := by
  simp only [_is_rate_limited, dictGetD_cleanup_self]

/-- Recording a failed attempt leaves the identifier's entry at exactly the
in-window part of the old timestamps with the new one appended. -/
theorem dictGetD_record_self (now : Int) (k : String) (m : Ledger) :
    dictGetD (_record_failed_attempt now k m) k [] =
      inWindow now (dictGetD m k [] ++ [now]) := by
  unfold _record_failed_attempt
  rw [dictGetD_cleanup_self, dictGetD_set_self]

/-- Every entry of a write is either the written pair or an old entry. -/
theorem mem_dictSet (m : Ledger) (k : String) (v : List Int)
    (q : String × List Int) (hq : q ∈ dictSet m k v) : q = (k, v) ∨ q ∈ m := by
  induction m with
  | nil => simpa [dictSet] using hq
  | cons p rest ih =>
    cases hp : p.1 == k with
    | true =>
      simp only [dictSet, hp, if_true] at hq
      rcases List.mem_cons.mp hq with h | h
      · exact Or.inl h
      · exact Or.inr (List.mem_cons_of_mem _ h)
    | false =>
      simp only [dictSet, hp, Bool.false_eq_true, if_false] at hq
      rcases List.mem_cons.mp hq with h | h
      · exact Or.inr (h ▸ List.mem_cons_self _ _)
      · rcases ih h with h' | h'
        · exact Or.inl h'
        · exact Or.inr (List.mem_cons_of_mem _ h')

/-- Every entry of a pop is an old entry. -/
theorem mem_dictPop (m : Ledger) (k : String) (q : String × List Int)
    (hq : q ∈ dictPop m k) : q ∈ m :=
  List.mem_of_mem_filter hq

/-- Every entry after pruning is either an old entry or the pruned entry
for the pruned identifier. -/
theorem mem_cleanup (now : Int) (k : String) (m : Ledger)
    (q : String × List Int) (hq : q ∈ _cleanup_attempts now k m) :
    q = (k, inWindow now (dictGetD m k [])) ∨ q ∈ m := by
  unfold _cleanup_attempts at hq
  by_cases h : (inWindow now (dictGetD m k [])).isEmpty
  · rw [if_pos h] at hq
    exact Or.inr (mem_dictPop _ _ _ hq)
  · rw [if_neg h] at hq
    exact mem_dictSet _ _ _ _ hq

/-- Under the entry bound, reading any key stays within the bound. -/
theorem dictGetD_length_le (n : Nat) (m : Ledger) (k : String)
    (hm : BoundedBy n m) : (dictGetD m k []).length ≤ n := by
  induction m with
  | nil => simp [dictGetD]
  | cons p rest ih =>
    cases hp : p.1 == k with
    | true =>
      simp only [dictGetD, hp, if_true]
      exact hm p (List.mem_cons_self _ _)
    | false =>
      simp only [dictGetD, hp, Bool.false_eq_true, if_false]
      exact ih (fun q hq => hm q (List.mem_cons_of_mem _ hq))

/-- Pruning preserves the entry bound. -/
theorem cleanup_bounded (n : Nat) (now : Int) (k : String) (m : Ledger)
    (hm : BoundedBy n m) : BoundedBy n (_cleanup_attempts now k m) := by
  intro q hq
  rcases mem_cleanup now k m q hq with h | h
  · subst h
    calc (inWindow now (dictGetD m k [])).length
        ≤ (dictGetD m k []).length := List.length_filter_le _ _
      _ ≤ n := dictGetD_length_le n m k hm
  · exact hm q h

/-- Popping preserves the entry bound. -/
theorem pop_bounded (n : Nat) (k : String) (m : Ledger)
    (hm : BoundedBy n m) : BoundedBy n (dictPop m k) :=
  fun q hq => hm q (mem_dictPop m k q hq)

/-- Recording a failed attempt keeps every entry within `n + 1` when the
recorded identifier's entry held at most `n` timestamps and every other
entry at most `n + 1`. -/
theorem record_bounded (n : Nat) (now : Int) (k : String) (m : Ledger)
    (hm : BoundedBy (n + 1) m) (hk : (dictGetD m k []).length ≤ n) :
    BoundedBy (n + 1) (_record_failed_attempt now k m) := by
  unfold _record_failed_attempt
  apply cleanup_bounded
  intro q hq
  rcases mem_dictSet _ _ _ _ hq with h | h
  · subst h
    simpa using Nat.add_le_add_right hk 1
  · exact hm q h

/-! Extraction from a clean registration validation -/

/-- An empty violation list forces every guard of
`_validate_registration_input` to be false. -/
theorem validation_nil_guards (name email password : String)
    (h : _validate_registration_input name email password = []) :
    (name == "" || decide ((pyStrip name).length < 2)) = false ∧
    namePatternMatch (pyStrip name) = true ∧
    (email == "" || !EMAIL_REGEX_match email) = false ∧
    (password == "" || decide (password.length < 8)) = false ∧
    password.data.any Char.isUpper = true ∧
    password.data.any Char.isLower = true ∧
    password.data.any Char.isDigit = true ∧
    password.data.any (fun c => specialChars.contains c) = true := by
  unfold _validate_registration_input at h
  simp only [List.append_eq_nil, guard_nil] at h
  obtain ⟨⟨⟨⟨⟨⟨⟨h1, h2⟩, h3⟩, h4⟩, h5⟩, h6⟩, h7⟩, h8⟩ := h
  refine ⟨h1, ?_, h3, h4, ?_, ?_, ?_, ?_⟩
  · simpa using h2
  · simpa using h5
  · simpa using h6
  · simpa using h7
  · simpa using h8

/-- An email accepted by the registration validator is accepted by the
login validator together with any password accepted there. -/
theorem validation_nil_login_ok (name email password : String)
    (h : _validate_registration_input name email password = []) :
    _validate_login_input (some email) (some password) = (true, none) := by
  obtain ⟨-, -, h3, h4, -⟩ := validation_nil_guards name email password h
  simp only [Bool.or_eq_false_iff, Bool.not_eq_false'] at h3
  simp only [Bool.or_eq_false_iff] at h4
  unfold _validate_login_input
  simp [pyFalsyStr, pyOrEmpty, h3.1, h3.2, h4.1]

/-! Claims -/

/-- C9: performing the rate-limit check (prune-then-count) twice in
immediate succession at the same time instant, with no new attempt recorded
in between, yields the same in-window attempt count both times and the same
flag; pruning is idempotent, so even the resulting ledger is unchanged. -/
theorem c9_rate_limit_check_idempotent (now : Int) (identifier : String) (m : Ledger) :
    (_is_rate_limited now identifier ((_is_rate_limited now identifier m).2)).1 =
      (_is_rate_limited now identifier m).1 ∧
    (dictGetD ((_is_rate_limited now identifier ((_is_rate_limited now identifier m).2)).2)
        identifier []).length =
      (dictGetD ((_is_rate_limited now identifier m).2) identifier []).length ∧
    _is_rate_limited now identifier ((_is_rate_limited now identifier m).2) =
      _is_rate_limited now identifier m := by
  have key : _is_rate_limited now identifier ((_is_rate_limited now identifier m).2) =
      _is_rate_limited now identifier m := by
    simp only [is_rate_limited_eq, dictGetD_cleanup_self, inWindow_idem, cleanup_idem]
  exact ⟨by rw [key], by rw [key], key⟩

/-- C1: a login whose rate-limit key has at least `MAX_LOGIN_ATTEMPTS`
in-window failed-attempt timestamps (after pruning) returns the rate-limit
failure message, performs no user-store lookup (the result is the same for
every store behaviour, hence also when the password is correct), and records
no new attempt: the resulting ledger is exactly the pruned one, whose
in-window timestamps for the key are those it already had. -/
theorem c1_rate_limited_hard_stop (crypto : Crypto) (find find' : String → FindOutcome)
    (email password identifier : Option String) (now : Int) (m : Ledger)
    (hv : (_validate_login_input email password).1 = true)
    (hlim : MAX_LOGIN_ATTEMPTS ≤
      (inWindow now (dictGetD m (pyOrStr identifier (pyLower (pyOrEmpty email))) [])).length) :
    login_user crypto find email password identifier now m =
      ({ success := false, message := "Too many failed attempts. Try again later.",
         user := none },
       _cleanup_attempts now (pyOrStr identifier (pyLower (pyOrEmpty email))) m) ∧
    login_user crypto find email password identifier now m =
      login_user crypto find' email password identifier now m ∧
    dictGetD (login_user crypto find email password identifier now m).2
        (pyOrStr identifier (pyLower (pyOrEmpty email))) [] =
      inWindow now (dictGetD m (pyOrStr identifier (pyLower (pyOrEmpty email))) []) := by
  have key : ∀ g : String → FindOutcome,
      login_user crypto g email password identifier now m =
        ({ success := false, message := "Too many failed attempts. Try again later.",
           user := none },
         _cleanup_attempts now (pyOrStr identifier (pyLower (pyOrEmpty email))) m) := by
    intro g
    simp only [login_user, hv, if_true, is_rate_limited_eq, decide_eq_true_eq]
    rw [if_pos hlim]
  refine ⟨key find, by rw [key find, key find'], ?_⟩
  rw [key find]
  exact dictGetD_cleanup_self now _ m

/-- The written key is present after a write. -/
theorem hasKey_set_self (m : Ledger) (k : String) (v : List Int) :
    hasKey (dictSet m k v) k = true := by
  induction m with
  | nil => simp [dictSet, hasKey]
  | cons p rest ih =>
    cases hp : p.1 == k with
    | true => simp [dictSet, hp, hasKey]
    | false =>
      have hstep : dictSet (p :: rest) k v = p :: dictSet rest k v := by
        simp [dictSet, hp]
      rw [hstep]
      simp only [hasKey, List.any_cons, hp, Bool.false_or] at ih ⊢
      exact ih

/-- A timestamp taken at the window's reference instant is in the window. -/
theorem now_in_window (now : Int) :
    decide (now - LOGIN_WINDOW_SECONDS ≤ now) = true := by
  simp only [decide_eq_true_eq, LOGIN_WINDOW_SECONDS]
  omega

/-- Recording a failed attempt for a key with no ledger entry yields an
entry holding exactly the one new timestamp. -/
theorem record_on_absent (now : Int) (k : String) (m : Ledger)
    (h : dictGetD m k [] = []) :
    dictGetD (_record_failed_attempt now k m) k [] = [now] := by
  rw [dictGetD_record_self, h]
  simp only [List.nil_append, inWindow, List.filter_cons, List.filter_nil,
    now_in_window, if_true]

/-- C2: with login validation passed and the key not rate-limited, a login
against a store with no record for the email and a login against a store
holding a record whose password does not match return the same structured
failure: success false with byte-identical message text. -/
theorem c2_indistinguishable_failures (crypto : Crypto)
    (find find' : String → FindOutcome) (u : UserDoc)
    (email password identifier : Option String) (now : Int) (m : Ledger)
    (hv : (_validate_login_input email password).1 = true)
    (hnl : (inWindow now (dictGetD m (pyOrStr identifier (pyLower (pyOrEmpty email))) [])).length
        < MAX_LOGIN_ATTEMPTS)
    (habsent : find (pyLower (pyOrEmpty email)) = FindOutcome.notFound)
    (hfound : find' (pyLower (pyOrEmpty email)) = FindOutcome.found u)
    (hwrong : crypto.checkpw (pyOrEmpty password) u.password_hash = some false) :
    (login_user crypto find email password identifier now m).1 =
      { success := false, message := "Invalid credentials", user := none } ∧
    (login_user crypto find' email password identifier now m).1 =
      { success := false, message := "Invalid credentials", user := none } ∧
    (login_user crypto find email password identifier now m).1.message =
      (login_user crypto find' email password identifier now m).1.message := by
  have hnl' : ¬ MAX_LOGIN_ATTEMPTS ≤
      (inWindow now (dictGetD m (pyOrStr identifier (pyLower (pyOrEmpty email))) [])).length :=
    Nat.not_le.mpr hnl
  have hA : (login_user crypto find email password identifier now m).1 =
      { success := false, message := "Invalid credentials", user := none } := by
    simp only [login_user, hv, if_true, is_rate_limited_eq, decide_eq_true_eq]
    rw [if_neg hnl', habsent]
  have hB : (login_user crypto find' email password identifier now m).1 =
      { success := false, message := "Invalid credentials", user := none } := by
    simp only [login_user, hv, if_true, is_rate_limited_eq, decide_eq_true_eq]
    rw [if_neg hnl', hfound]
    simp [hwrong]
  exact ⟨hA, hB, by rw [hA, hB]⟩

/-- C3: when password verification succeeds, the ledger entry for the key is
cleared (the key is no longer present and reads back empty) and the call
returns success with the authenticated user view; a following failed
attempt for the key therefore leaves a count of exactly 1. -/
theorem c3_success_clears_ledger (crypto : Crypto) (find : String → FindOutcome)
    (u : UserDoc) (email password identifier : Option String) (now now2 : Int)
    (m : Ledger)
    (hv : (_validate_login_input email password).1 = true)
    (hnl : (inWindow now (dictGetD m (pyOrStr identifier (pyLower (pyOrEmpty email))) [])).length
        < MAX_LOGIN_ATTEMPTS)
    (hfound : find (pyLower (pyOrEmpty email)) = FindOutcome.found u)
    (hok : crypto.checkpw (pyOrEmpty password) u.password_hash = some true) :
    (login_user crypto find email password identifier now m).1 =
      { success := true, message := "Login successful", user := some (userSafe u) } ∧
    hasKey (login_user crypto find email password identifier now m).2
        (pyOrStr identifier (pyLower (pyOrEmpty email))) = false ∧
    dictGetD (login_user crypto find email password identifier now m).2
        (pyOrStr identifier (pyLower (pyOrEmpty email))) [] = [] ∧
    (dictGetD
        (_record_failed_attempt now2 (pyOrStr identifier (pyLower (pyOrEmpty email)))
          (login_user crypto find email password identifier now m).2)
        (pyOrStr identifier (pyLower (pyOrEmpty email))) []).length = 1 := by
  have hnl' : ¬ MAX_LOGIN_ATTEMPTS ≤
      (inWindow now (dictGetD m (pyOrStr identifier (pyLower (pyOrEmpty email))) [])).length :=
    Nat.not_le.mpr hnl
  have hmain : login_user crypto find email password identifier now m =
      ({ success := true, message := "Login successful", user := some (userSafe u) },
       if hasKey (_cleanup_attempts now (pyOrStr identifier (pyLower (pyOrEmpty email))) m)
            (pyOrStr identifier (pyLower (pyOrEmpty email))) then
         dictPop (_cleanup_attempts now (pyOrStr identifier (pyLower (pyOrEmpty email))) m)
           (pyOrStr identifier (pyLower (pyOrEmpty email)))
       else _cleanup_attempts now (pyOrStr identifier (pyLower (pyOrEmpty email))) m) := by
    simp only [login_user, hv, if_true, is_rate_limited_eq, decide_eq_true_eq]
    rw [if_neg hnl', hfound]
    simp [hok]
  have hkey : hasKey (login_user crypto find email password identifier now m).2
      (pyOrStr identifier (pyLower (pyOrEmpty email))) = false := by
    rw [hmain]
    by_cases hk : hasKey (_cleanup_attempts now (pyOrStr identifier (pyLower (pyOrEmpty email))) m)
        (pyOrStr identifier (pyLower (pyOrEmpty email)))
    · simp only [hk, if_true]
      exact hasKey_pop_self _ _
    · simp only [hk, if_false]
      exact Bool.eq_false_iff.mpr hk
  have hempty : dictGetD (login_user crypto find email password identifier now m).2
      (pyOrStr identifier (pyLower (pyOrEmpty email))) [] = [] :=
    dictGetD_of_hasKey_false _ _ _ hkey
  refine ⟨by rw [hmain], hkey, hempty, ?_⟩
  rw [record_on_absent now2 _ _ hempty]
  rfl

/-- C5: the registration validator evaluates every rule and reports every
violation at once: whatever the other fields, a password that is too short,
or missing an uppercase letter, a lowercase letter, a digit, or a special
character, always contributes its specific message to the returned list,
which is then non-empty. -/
theorem c5_validator_reports_all_violations (name email password : String) :
    (password.length < 8 →
      "Password must be at least 8 characters long." ∈
        _validate_registration_input name email password) ∧
    (password.data.any Char.isUpper = false →
      "Password must contain at least 1 uppercase letter." ∈
        _validate_registration_input name email password) ∧
    (password.data.any Char.isLower = false →
      "Password must contain at least 1 lowercase letter." ∈
        _validate_registration_input name email password) ∧
    (password.data.any Char.isDigit = false →
      "Password must contain at least 1 number." ∈
        _validate_registration_input name email password) ∧
    (password.data.any (fun c => specialChars.contains c) = false →
      "Password must contain at least 1 special character." ∈
        _validate_registration_input name email password) ∧
    ((password.length < 8 ∨ password.data.any Char.isUpper = false ∨
        password.data.any Char.isLower = false ∨
        password.data.any Char.isDigit = false ∨
        password.data.any (fun c => specialChars.contains c) = false) →
      _validate_registration_input name email password ≠ []) := by
  have h1 : password.length < 8 →
      "Password must be at least 8 characters long." ∈
        _validate_registration_input name email password := by
    intro h
    have hb : (password == "" || decide (password.length < 8)) = true := by
      simp [h]
    unfold _validate_registration_input
    rw [if_pos hb]
    simp
  have h2 : password.data.any Char.isUpper = false →
      "Password must contain at least 1 uppercase letter." ∈
        _validate_registration_input name email password := by
    intro h
    unfold _validate_registration_input
    rw [if_pos (by simp [h] : (!password.data.any Char.isUpper) = true)]
    simp
  have h3 : password.data.any Char.isLower = false →
      "Password must contain at least 1 lowercase letter." ∈
        _validate_registration_input name email password := by
    intro h
    unfold _validate_registration_input
    rw [if_pos (by simp [h] : (!password.data.any Char.isLower) = true)]
    simp
  have h4 : password.data.any Char.isDigit = false →
      "Password must contain at least 1 number." ∈
        _validate_registration_input name email password := by
    intro h
    unfold _validate_registration_input
    rw [if_pos (by simp [h] : (!password.data.any Char.isDigit) = true)]
    simp
  have h5 : password.data.any (fun c => specialChars.contains c) = false →
      "Password must contain at least 1 special character." ∈
        _validate_registration_input name email password := by
    intro h
    unfold _validate_registration_input
    rw [if_pos (by simp only [h, Bool.not_false] :
      (!password.data.any (fun c => specialChars.contains c)) = true)]
    simp
  refine ⟨h1, h2, h3, h4, h5, ?_⟩
  rintro (h | h | h | h | h)
  · exact List.ne_nil_of_mem (h1 h)
  · exact List.ne_nil_of_mem (h2 h)
  · exact List.ne_nil_of_mem (h3 h)
  · exact List.ne_nil_of_mem (h4 h)
  · exact List.ne_nil_of_mem (h5 h)

/-- C6: with validation passed and the password hashed, registration against
the users collection (whose unique email index reports a duplicate) returns
the "Email already registered" failure with no user id, leaving the store
untouched; and when the email is free, the inserted record's email field is
exactly the lowercased trimmed input email. -/
theorem c6_duplicate_email_and_stored_email (crypto : Crypto) (store : Store)
    (name email password h : String) (nowUtc : Int)
    (hval : _validate_registration_input name email password = [])
    (hh : crypto.hashpw password = some h) :
    (store.any (fun u => u.email == pyLower (pyStrip email)) = true →
      register_user crypto mongoInsert store (some name) (some email) (some password) nowUtc =
        ({ success := false, message := "Email already registered", user_id := none },
         store)) ∧
    (store.any (fun u => u.email == pyLower (pyStrip email)) = false →
      register_user crypto mongoInsert store (some name) (some email) (some password) nowUtc =
        ({ success := true, message := "User registered successfully",
           user_id := some ("oid" ++ toString store.length) },
         store ++ [{ id := "oid" ++ toString store.length, name := pyStrip name,
                     email := pyLower (pyStrip email), password_hash := h,
                     role := "user", created_at := nowUtc }])) := by
  constructor
  · intro hdup
    simp only [register_user, pyOrEmpty, hval, List.isEmpty_nil, if_true, hh, mongoInsert]
    rw [if_pos hdup]
  · intro hfree
    simp only [register_user, pyOrEmpty, hval, List.isEmpty_nil, if_true, hh, mongoInsert]
    rw [if_neg (by simp [hfree])]

/-- C7 (amended): the retention invariant holds for the identifier an
operation acts on.  After pruning, the identifier's entry reads back exactly
its in-window timestamps, is removed entirely when none remain, is non-empty
whenever the key is still present, and holds only in-window timestamps.
After recording a failed attempt, the key is present with a non-empty,
all-in-window entry.  Clearing on success removes the key.  (Entries of
other identifiers are pruned lazily at their own next operation.) -/
theorem c7_ledger_invariant_per_identifier (now : Int) (k : String) (m : Ledger) :
    (dictGetD (_cleanup_attempts now k m) k [] = inWindow now (dictGetD m k []) ∧
     (inWindow now (dictGetD m k []) = [] →
       hasKey (_cleanup_attempts now k m) k = false) ∧
     (hasKey (_cleanup_attempts now k m) k = true →
       dictGetD (_cleanup_attempts now k m) k [] ≠ []) ∧
     (∀ ts ∈ dictGetD (_cleanup_attempts now k m) k [],
       now - LOGIN_WINDOW_SECONDS ≤ ts)) ∧
    (hasKey (_record_failed_attempt now k m) k = true ∧
     dictGetD (_record_failed_attempt now k m) k [] ≠ [] ∧
     (∀ ts ∈ dictGetD (_record_failed_attempt now k m) k [],
       now - LOGIN_WINDOW_SECONDS ≤ ts)) ∧
    hasKey (dictPop m k) k = false := by
  have hnowmem : now ∈ inWindow now (dictGetD m k [] ++ [now]) :=
    List.mem_filter.mpr ⟨List.mem_append_right _ (List.mem_singleton.mpr rfl),
      now_in_window now⟩
  refine ⟨⟨dictGetD_cleanup_self now k m, ?_, ?_, ?_⟩, ⟨?_, ?_, ?_⟩, hasKey_pop_self m k⟩
  · intro hnil
    unfold _cleanup_attempts
    rw [if_pos (by rw [hnil]; rfl)]
    exact hasKey_pop_self m k
  · intro hpres
    by_cases hemp : (inWindow now (dictGetD m k [])).isEmpty
    · exfalso
      have : hasKey (_cleanup_attempts now k m) k = false := by
        unfold _cleanup_attempts
        rw [if_pos hemp]
        exact hasKey_pop_self m k
      rw [hpres] at this
      exact Bool.true_eq_false.mp this
    · rw [dictGetD_cleanup_self]
      exact fun hc => hemp (by rw [hc]; rfl)
  · intro ts hts
    rw [dictGetD_cleanup_self] at hts
    simp only [inWindow] at hts
    have hp := List.of_mem_filter hts
    simpa only [decide_eq_true_eq] using hp
  · simp only [_record_failed_attempt, _cleanup_attempts, dictGetD_set_self]
    rw [if_neg (by
      intro hemp
      rw [List.isEmpty_iff] at hemp
      rw [hemp] at hnowmem
      exact (List.not_mem_nil now) hnowmem)]
    exact hasKey_set_self _ _ _
  · rw [dictGetD_record_self]
    exact List.ne_nil_of_mem hnowmem
  · intro ts hts
    rw [dictGetD_record_self] at hts
    simp only [inWindow] at hts
    have hp := List.of_mem_filter hts
    simpa only [decide_eq_true_eq] using hp

/-- C7 counterexample: the global version of the invariant is false on the
code.  Two failed logins for different identifiers, the first at time 0 and
the second at time 1000, leave the first identifier's entry holding the
timestamp 0, which is outside the trailing window of the second operation
(window start 1000 - 900 = 100): pruning touches only the operated key. -/
theorem c7_global_invariant_counterexample :
    runLogins
      [{ crypto := cryptoT, find := fun _ => FindOutcome.notFound,
         email := some "b@x.co", password := some "x", identifier := none, now := 0 },
       { crypto := cryptoT, find := fun _ => FindOutcome.notFound,
         email := some "a@x.co", password := some "x", identifier := none, now := 1000 }]
      [] = [("b@x.co", [0]), ("a@x.co", [1000])] ∧
    ¬ (∀ p ∈ [(("b@x.co" : String), [(0 : Int)]), ("a@x.co", [1000])],
        ∀ ts ∈ p.2, 1000 - LOGIN_WINDOW_SECONDS ≤ ts) := by
  constructor
  · decide
  · decide

/-- One `login_user` call preserves the per-entry bound of
`MAX_LOGIN_ATTEMPTS` timestamps: a failed attempt is appended only after
the rate-limit check saw fewer than the maximum in-window attempts. -/
theorem login_preserves_bound (crypto : Crypto) (find : String → FindOutcome)
    (email password identifier : Option String) (now : Int) (m : Ledger)
    (hm : BoundedBy MAX_LOGIN_ATTEMPTS m) :
    BoundedBy MAX_LOGIN_ATTEMPTS
      (login_user crypto find email password identifier now m).2 := by
  cases hv : (_validate_login_input email password).1 with
  | false =>
    simp only [login_user, hv, Bool.false_eq_true, if_false]
    exact hm
  | true =>
    simp only [login_user, hv, if_true, is_rate_limited_eq]
    set k := pyOrStr identifier (pyLower (pyOrEmpty email)) with hk
    have hclean : BoundedBy MAX_LOGIN_ATTEMPTS (_cleanup_attempts now k m) :=
      cleanup_bounded _ now k m hm
    by_cases hlim : MAX_LOGIN_ATTEMPTS ≤ (inWindow now (dictGetD m k [])).length
    · rw [if_pos (decide_eq_true hlim)]
      exact hclean
    · rw [if_neg (by simp [decide_eq_false hlim])]
      have hlt : (inWindow now (dictGetD m k [])).length < MAX_LOGIN_ATTEMPTS :=
        Nat.not_le.mp hlim
      have hcount : (dictGetD (_cleanup_attempts now k m) k []).length ≤ 4 := by
        rw [dictGetD_cleanup_self]
        simp only [MAX_LOGIN_ATTEMPTS] at hlt
        omega
      have hrec : BoundedBy MAX_LOGIN_ATTEMPTS
          (_record_failed_attempt now k (_cleanup_attempts now k m)) :=
        record_bounded 4 now k _ hclean hcount
      cases hf : find (pyLower (pyOrEmpty email)) with
      | notFound =>
        simpa using hrec
      | found u =>
        simp only []
        cases hc : crypto.checkpw (pyOrEmpty password) u.password_hash with
        | none => simpa using hrec
        | some b =>
          cases b with
          | false => simpa using hrec
          | true =>
            by_cases hkk : hasKey (_cleanup_attempts now k m) k
            · simpa [hkk] using pop_bounded _ k _ hclean
            · simpa [hkk] using hclean
      | pyMongoError => simpa using hclean
      | raised => simpa using hclean

/-- C10: after any sequence of `login_user` calls starting from the empty
ledger, every identifier's entry holds at most `MAX_LOGIN_ATTEMPTS`
timestamps: an attempt is recorded only when the rate-limit check found
fewer than the maximum in-window attempts for the key. -/
theorem c10_ledger_bounded_by_max_attempts (calls : List LoginCall) :
    ∀ p ∈ runLogins calls [], p.2.length ≤ MAX_LOGIN_ATTEMPTS := by
  have key : ∀ (cs : List LoginCall) (m : Ledger),
      BoundedBy MAX_LOGIN_ATTEMPTS m →
        BoundedBy MAX_LOGIN_ATTEMPTS (runLogins cs m) := by
    intro cs
    induction cs with
    | nil =>
      intro m hm
      simpa [runLogins] using hm
    | cons c rest ih =>
      intro m hm
      simp only [runLogins]
      exact ih _ (login_preserves_bound c.crypto c.find c.email c.password
        c.identifier c.now m hm)
  intro p hp
  exact key calls [] (by intro q hq; simp at hq) p hp

/-- C8: the validators are total and the public operations always return a
structured result; exceptions from the collaborators are converted at the
service boundary, never propagated.  Missing or empty inputs yield plain
validation failures; a raising `bcrypt.hashpw` or a raising `insert_one`
yields the generic "Internal error" registration failure and a
`PyMongoError` the "Database error" one; a raising `find_one` yields the
login "Internal error" result and a `PyMongoError` the "Database error"
result, the ledger staying at its pruned state; a raising `bcrypt.checkpw`
is converted to the generic invalid-credentials failure with the attempt
recorded. -/
theorem c8_no_exception_escapes {σ : Type} (crypto : Crypto)
    (ins : UserDoc → σ → InsertOutcome × σ) (s0 s1 : σ)
    (find : String → FindOutcome) (u : UserDoc)
    (fullName email password identifier : Option String)
    (nowUtc now : Int) (m : Ledger) :
    ((register_user crypto ins s0 none none none nowUtc).1.success = false ∧
     (register_user crypto ins s0 none none none nowUtc).1.user_id = none ∧
     (register_user crypto ins s0 none none none nowUtc).2 = s0) ∧
    (login_user crypto find none none identifier now m =
      ({ success := false, message := "Invalid credentials", user := none }, m)) ∧
    (_validate_registration_input (pyOrEmpty fullName) (pyOrEmpty email)
        (pyOrEmpty password) = [] →
      crypto.hashpw (pyOrEmpty password) = none →
      register_user crypto ins s0 fullName email password nowUtc =
        ({ success := false, message := "Internal error", user_id := none }, s0)) ∧
    (∀ h : String,
      _validate_registration_input (pyOrEmpty fullName) (pyOrEmpty email)
          (pyOrEmpty password) = [] →
      crypto.hashpw (pyOrEmpty password) = some h →
      ins { id := "", name := pyStrip (pyOrEmpty fullName),
            email := pyLower (pyStrip (pyOrEmpty email)), password_hash := h,
            role := "user", created_at := nowUtc } s0 = (InsertOutcome.raised, s1) →
      register_user crypto ins s0 fullName email password nowUtc =
        ({ success := false, message := "Internal error", user_id := none }, s1)) ∧
    (∀ h : String,
      _validate_registration_input (pyOrEmpty fullName) (pyOrEmpty email)
          (pyOrEmpty password) = [] →
      crypto.hashpw (pyOrEmpty password) = some h →
      ins { id := "", name := pyStrip (pyOrEmpty fullName),
            email := pyLower (pyStrip (pyOrEmpty email)), password_hash := h,
            role := "user", created_at := nowUtc } s0 =
        (InsertOutcome.pyMongoError, s1) →
      register_user crypto ins s0 fullName email password nowUtc =
        ({ success := false, message := "Database error", user_id := none }, s1)) ∧
    ((_validate_login_input email password).1 = true →
      (inWindow now (dictGetD m (pyOrStr identifier (pyLower (pyOrEmpty email))) [])).length
          < MAX_LOGIN_ATTEMPTS →
      (find (pyLower (pyOrEmpty email)) = FindOutcome.raised →
        login_user crypto find email password identifier now m =
          ({ success := false, message := "Internal error", user := none },
           _cleanup_attempts now (pyOrStr identifier (pyLower (pyOrEmpty email))) m)) ∧
      (find (pyLower (pyOrEmpty email)) = FindOutcome.pyMongoError →
        login_user crypto find email password identifier now m =
          ({ success := false, message := "Database error", user := none },
           _cleanup_attempts now (pyOrStr identifier (pyLower (pyOrEmpty email))) m)) ∧
      (find (pyLower (pyOrEmpty email)) = FindOutcome.found u →
        crypto.checkpw (pyOrEmpty password) u.password_hash = none →
        login_user crypto find email password identifier now m =
          ({ success := false, message := "Invalid credentials", user := none },
           _record_failed_attempt now (pyOrStr identifier (pyLower (pyOrEmpty email)))
             (_cleanup_attempts now (pyOrStr identifier (pyLower (pyOrEmpty email))) m)))) := by
  refine ⟨⟨?_, ?_, ?_⟩, ?_, ?_, ?_, ?_, ?_⟩
  · simp [register_user, pyOrEmpty, _validate_registration_input]
  · simp [register_user, pyOrEmpty, _validate_registration_input]
  · simp [register_user, pyOrEmpty, _validate_registration_input]
  · simp [login_user, _validate_login_input, pyFalsyStr]
  · intro hval hraise
    simp only [register_user, hval, List.isEmpty_nil, if_true, hraise]
  · intro h hval hhash hins
    simp only [register_user, hval, List.isEmpty_nil, if_true, hhash, hins]
  · intro h hval hhash hins
    simp only [register_user, hval, List.isEmpty_nil, if_true, hhash, hins]
  · intro hv hnl
    have hnl' : ¬ MAX_LOGIN_ATTEMPTS ≤
        (inWindow now (dictGetD m (pyOrStr identifier (pyLower (pyOrEmpty email))) [])).length :=
      Nat.not_le.mpr hnl
    refine ⟨?_, ?_, ?_⟩
    · intro hf
      simp only [login_user, hv, if_true, is_rate_limited_eq, decide_eq_true_eq]
      rw [if_neg hnl', hf]
    · intro hf
      simp only [login_user, hv, if_true, is_rate_limited_eq, decide_eq_true_eq]
      rw [if_neg hnl', hf]
    · intro hf hc
      simp only [login_user, hv, if_true, is_rate_limited_eq, decide_eq_true_eq]
      rw [if_neg hnl', hf]
      simp [hc]

/-- C4 (amended): for every name, email and password accepted by
registration validation, provided the email carries no surrounding
whitespace (no trailing newline — the only whitespace the anchored pattern
can accept), registering against an empty store and then logging in with
the same email and plaintext password succeeds, and the returned view's
email is the lowercased registration email.  The view is a `UserSafe`
value, which has no password-hash field by construction. -/
theorem c4_register_login_roundtrip (crypto : Crypto)
    (name email password h : String) (now nowUtc : Int)
    (hval : _validate_registration_input name email password = [])
    (htrim : pyStrip email = email)
    (hh : crypto.hashpw password = some h)
    (hc : crypto.checkpw password h = some true) :
    (register_user crypto mongoInsert [] (some name) (some email) (some password)
        nowUtc).1.success = true ∧
    (login_user crypto
        (mongoFind (register_user crypto mongoInsert [] (some name) (some email)
          (some password) nowUtc).2)
        (some email) (some password) none now []).1 =
      { success := true, message := "Login successful",
        user := some { user_id := "oid0", name := pyStrip name,
                       email := pyLower email, role := "user",
                       created_at := nowUtc } } ∧
    (∀ us, (login_user crypto
        (mongoFind (register_user crypto mongoInsert [] (some name) (some email)
          (some password) nowUtc).2)
        (some email) (some password) none now []).1.user = some us →
      us.email = pyLower email) := by
  have hreg : register_user crypto mongoInsert [] (some name) (some email)
      (some password) nowUtc =
      ({ success := true, message := "User registered successfully",
         user_id := some "oid0" },
       [{ id := "oid0", name := pyStrip name, email := pyLower email,
          password_hash := h, role := "user", created_at := nowUtc }]) := by
    simp only [register_user, pyOrEmpty, hval, List.isEmpty_nil, if_true, hh,
      mongoInsert, htrim]
    rw [if_neg (by simp)]
    rfl
  have hv' := validation_nil_login_ok name email password hval
  have hlogin : login_user crypto
      (mongoFind [{ id := "oid0", name := pyStrip name, email := pyLower email,
                    password_hash := h, role := "user", created_at := nowUtc }])
      (some email) (some password) none now [] =
      ({ success := true, message := "Login successful",
         user := some { user_id := "oid0", name := pyStrip name,
                        email := pyLower email, role := "user",
                        created_at := nowUtc } }, []) := by
    simp only [login_user, hv', if_true, pyOrEmpty, pyOrStr, is_rate_limited_eq]
    rw [if_neg (by simp [dictGetD, inWindow, MAX_LOGIN_ATTEMPTS])]
    simp only [mongoFind, List.find?, userSafe]
    simp only [beq_self_eq_true, hc]
    simp [_cleanup_attempts, dictGetD, inWindow, dictPop, hasKey, userSafe]
  have hl1 : (login_user crypto
      (mongoFind (register_user crypto mongoInsert [] (some name) (some email)
        (some password) nowUtc).2)
      (some email) (some password) none now []).1 =
      { success := true, message := "Login successful",
        user := some { user_id := "oid0", name := pyStrip name,
                       email := pyLower email, role := "user",
                       created_at := nowUtc } } := by
    rw [hreg]
    exact congrArg Prod.fst hlogin
  refine ⟨by rw [hreg], hl1, ?_⟩
  intro us hus
  rw [hl1] at hus
  simp only [Option.some.injEq] at hus
  subst hus
  rfl

/-- C4 counterexample: the round trip as stated fails on the code.  The
email "a@b.co\x0a" (with a trailing newline) is accepted by registration
validation, because Python's regex anchor matches just before a trailing
newline; registration stores the stripped, lowercased email "a@b.co", but
the login lookup lowercases without stripping and queries "a@b.co\x0a",
finds no record, and fails with "Invalid credentials" despite the correct
password. -/
theorem c4_roundtrip_counterexample :
    _validate_registration_input "Alice Doe" "a@b.co\n" "Str0ng!Pw" = [] ∧
    (register_user cryptoT mongoInsert [] (some "Alice Doe") (some "a@b.co\n")
        (some "Str0ng!Pw") 0).1.success = true ∧
    (login_user cryptoT
        (mongoFind (register_user cryptoT mongoInsert [] (some "Alice Doe")
          (some "a@b.co\n") (some "Str0ng!Pw") 0).2)
        (some "a@b.co\n") (some "Str0ng!Pw") none 0 []).1 =
      { success := false, message := "Invalid credentials", user := none } := by
  refine ⟨by decide, by decide, by decide⟩

/-- Witness for C1: five in-window failed attempts at time 1000 make the
sixth call return the rate-limit failure with the ledger unchanged. -/
theorem c1_rate_limited_hard_stop_witness :
    login_user cryptoT (fun _ => FindOutcome.notFound) (some "a@b.co") (some "Pw")
      none 1000 [("a@b.co", [950, 960, 970, 980, 990])] =
      ({ success := false, message := "Too many failed attempts. Try again later.",
         user := none }, [("a@b.co", [950, 960, 970, 980, 990])]) := by
  have h := c1_rate_limited_hard_stop cryptoT (fun _ => FindOutcome.notFound)
    (fun _ => FindOutcome.notFound) (some "a@b.co") (some "Pw") none 1000
    [("a@b.co", [950, 960, 970, 980, 990])] (by decide) (by decide)
  exact h.1.trans (by decide)

/-- Witness for C2: unknown email and wrong password for an existing email
produce the identical failure result. -/
theorem c2_indistinguishable_failures_witness :
    (login_user cryptoT (fun _ => FindOutcome.notFound) (some "a@b.co") (some "Pw")
        none 0 []).1 =
      { success := false, message := "Invalid credentials", user := none } ∧
    (login_user cryptoT
        (fun _ => FindOutcome.found (UserDoc.mk "oid0" "A" "a@b.co" "hOther" "user" 0))
        (some "a@b.co") (some "Pw") none 0 []).1 =
      { success := false, message := "Invalid credentials", user := none } := by
  have h := c2_indistinguishable_failures cryptoT (fun _ => FindOutcome.notFound)
    (fun _ => FindOutcome.found (UserDoc.mk "oid0" "A" "a@b.co" "hOther" "user" 0))
    (UserDoc.mk "oid0" "A" "a@b.co" "hOther" "user" 0)
    (some "a@b.co") (some "Pw") none 0 [] (by decide) (by decide) rfl rfl (by decide)
  exact ⟨h.1, h.2.1⟩

/-- Witness for C3: a successful login with one prior failed attempt clears
the entry, and the next failed attempt counts 1. -/
theorem c3_success_clears_ledger_witness :
    (login_user cryptoT
        (fun _ => FindOutcome.found (UserDoc.mk "oid0" "A" "a@b.co" "hPw" "user" 0))
        (some "a@b.co") (some "Pw") none 100 [("a@b.co", [10])]).1 =
      { success := true, message := "Login successful",
        user := some { user_id := "oid0", name := "A", email := "a@b.co",
                       role := "user", created_at := 0 } } ∧
    hasKey (login_user cryptoT
        (fun _ => FindOutcome.found (UserDoc.mk "oid0" "A" "a@b.co" "hPw" "user" 0))
        (some "a@b.co") (some "Pw") none 100 [("a@b.co", [10])]).2 "a@b.co" = false ∧
    (dictGetD (_record_failed_attempt 200 "a@b.co"
        (login_user cryptoT
          (fun _ => FindOutcome.found (UserDoc.mk "oid0" "A" "a@b.co" "hPw" "user" 0))
          (some "a@b.co") (some "Pw") none 100 [("a@b.co", [10])]).2)
      "a@b.co" []).length = 1 := by
  have h := c3_success_clears_ledger cryptoT
    (fun _ => FindOutcome.found (UserDoc.mk "oid0" "A" "a@b.co" "hPw" "user" 0))
    (UserDoc.mk "oid0" "A" "a@b.co" "hPw" "user" 0)
    (some "a@b.co") (some "Pw") none 100 200 [("a@b.co", [10])]
    (by decide) (by decide) rfl (by decide)
  exact ⟨h.1.trans (by decide), h.2.1, h.2.2.2⟩

/-- Witness for C4 (amended): concrete register-then-login round trip. -/
theorem c4_register_login_roundtrip_witness :
    (register_user cryptoT mongoInsert [] (some "Alice Doe") (some "a@b.co")
        (some "Str0ng!Pw") 7).1.success = true ∧
    (login_user cryptoT
        (mongoFind (register_user cryptoT mongoInsert [] (some "Alice Doe")
          (some "a@b.co") (some "Str0ng!Pw") 7).2)
        (some "a@b.co") (some "Str0ng!Pw") none 3 []).1 =
      { success := true, message := "Login successful",
        user := some { user_id := "oid0", name := "Alice Doe", email := "a@b.co",
                       role := "user", created_at := 7 } } := by
  have h := c4_register_login_roundtrip cryptoT "Alice Doe" "a@b.co" "Str0ng!Pw"
    "hStr0ng!Pw" 3 7 (by decide) (by decide) rfl (by decide)
  exact ⟨h.1, h.2.1.trans (by decide)⟩

/-- Witness for C5: the empty password triggers every password rule at once. -/
theorem c5_validator_reports_all_violations_witness :
    "Password must be at least 8 characters long." ∈
      _validate_registration_input "Al" "a@b.co" "" ∧
    "Password must contain at least 1 uppercase letter." ∈
      _validate_registration_input "Al" "a@b.co" "" ∧
    "Password must contain at least 1 lowercase letter." ∈
      _validate_registration_input "Al" "a@b.co" "" ∧
    "Password must contain at least 1 number." ∈
      _validate_registration_input "Al" "a@b.co" "" ∧
    "Password must contain at least 1 special character." ∈
      _validate_registration_input "Al" "a@b.co" "" ∧
    _validate_registration_input "Al" "a@b.co" "" ≠ [] := by
  have h := c5_validator_reports_all_violations "Al" "a@b.co" ""
  exact ⟨h.1 (by decide), h.2.1 (by decide), h.2.2.1 (by decide),
    h.2.2.2.1 (by decide), h.2.2.2.2.1 (by decide),
    h.2.2.2.2.2 (Or.inl (by decide))⟩

/-- Witness for C6: the spec's own example — registering
"ALICE@Example.com" stores lowercase "alice@example.com", and a second
registration with "alice@example.com" fails with the duplicate message. -/
theorem c6_duplicate_email_and_stored_email_witness :
    register_user cryptoT mongoInsert [] (some "Alice Doe") (some "ALICE@Example.com")
        (some "Str0ng!Pw") 0 =
      ({ success := true, message := "User registered successfully",
         user_id := some "oid0" },
       [{ id := "oid0", name := "Alice Doe", email := "alice@example.com",
          password_hash := "hStr0ng!Pw", role := "user", created_at := 0 }]) ∧
    register_user cryptoT mongoInsert
        [{ id := "oid0", name := "Alice Doe", email := "alice@example.com",
           password_hash := "hStr0ng!Pw", role := "user", created_at := 0 }]
        (some "Bob") (some "alice@example.com") (some "An0ther!Pw") 1 =
      ({ success := false, message := "Email already registered", user_id := none },
       [{ id := "oid0", name := "Alice Doe", email := "alice@example.com",
          password_hash := "hStr0ng!Pw", role := "user", created_at := 0 }]) := by
  have h1 := c6_duplicate_email_and_stored_email cryptoT [] "Alice Doe"
    "ALICE@Example.com" "Str0ng!Pw" "hStr0ng!Pw" 0 (by decide) rfl
  have h2 := c6_duplicate_email_and_stored_email cryptoT
    [{ id := "oid0", name := "Alice Doe", email := "alice@example.com",
       password_hash := "hStr0ng!Pw", role := "user", created_at := 0 }]
    "Bob" "alice@example.com" "An0ther!Pw" "hAn0ther!Pw" 1 (by decide) rfl
  exact ⟨(h1.2 (by decide)).trans (by decide), h2.1 (by decide)⟩

/-- Witness for C7 (amended): concrete pruning, recording and clearing. -/
theorem c7_ledger_invariant_per_identifier_witness :
    (1000 - LOGIN_WINDOW_SECONDS ≤ 950) ∧
    hasKey (_cleanup_attempts 1000 "a" [("a", [10])]) "a" = false ∧
    dictGetD (_cleanup_attempts 1000 "a" [("a", [950, 10])]) "a" [] ≠ [] ∧
    dictGetD (_record_failed_attempt 1000 "a" [("a", [950, 10])]) "a" [] ≠ [] ∧
    hasKey (dictPop [("a", [(950 : Int), 10])] "a") "a" = false := by
  have hA := c7_ledger_invariant_per_identifier 1000 "a" [("a", [950, 10])]
  have hB := c7_ledger_invariant_per_identifier 1000 "a" [("a", [10])]
  refine ⟨hA.1.2.2.2 950 ?_, hB.1.2.1 (by decide), hA.1.2.2.1 (by decide),
    hA.2.1.2.1, hA.2.2⟩
  rw [hA.1.1]
  decide

/-- Witness for C8: each exception injection point, exercised concretely. -/
theorem c8_no_exception_escapes_witness :
    ((register_user cryptoT (fun _ s => (InsertOutcome.raised, s)) () none none none
        0).1.success = false) ∧
    (login_user cryptoT (fun _ => FindOutcome.raised) none none none 0 [] =
      ({ success := false, message := "Invalid credentials", user := none }, [])) ∧
    (register_user { hashpw := fun _ => none, checkpw := fun _ _ => none }
        (fun _ s => (InsertOutcome.ok "x", s)) () (some "Alice Doe") (some "a@b.co")
        (some "Str0ng!Pw") 0 =
      ({ success := false, message := "Internal error", user_id := none }, ())) ∧
    (register_user cryptoT (fun _ s => (InsertOutcome.raised, s)) () (some "Alice Doe")
        (some "a@b.co") (some "Str0ng!Pw") 0 =
      ({ success := false, message := "Internal error", user_id := none }, ())) ∧
    (register_user cryptoT (fun _ s => (InsertOutcome.pyMongoError, s)) ()
        (some "Alice Doe") (some "a@b.co") (some "Str0ng!Pw") 0 =
      ({ success := false, message := "Database error", user_id := none }, ())) ∧
    (login_user cryptoT (fun _ => FindOutcome.raised) (some "a@b.co")
        (some "Str0ng!Pw") none 0 [] =
      ({ success := false, message := "Internal error", user := none }, [])) ∧
    (login_user cryptoT (fun _ => FindOutcome.pyMongoError) (some "a@b.co")
        (some "Str0ng!Pw") none 0 [] =
      ({ success := false, message := "Database error", user := none }, [])) ∧
    (login_user { hashpw := fun _ => none, checkpw := fun _ _ => none }
        (fun _ => FindOutcome.found (UserDoc.mk "i" "A" "a@b.co" "bad" "user" 0))
        (some "a@b.co") (some "Str0ng!Pw") none 0 [] =
      ({ success := false, message := "Invalid credentials", user := none },
       [("a@b.co", [0])])) := by
  have hB := c8_no_exception_escapes cryptoT (fun _ s => (InsertOutcome.raised, s))
    () () (fun _ => FindOutcome.raised)
    (UserDoc.mk "i" "A" "a@b.co" "bad" "user" 0)
    (some "Alice Doe") (some "a@b.co") (some "Str0ng!Pw") none 0 0 []
  have hA := c8_no_exception_escapes
    { hashpw := fun _ => none, checkpw := fun _ _ => none }
    (fun _ s => (InsertOutcome.ok "x", s)) () ()
    (fun _ => FindOutcome.found (UserDoc.mk "i" "A" "a@b.co" "bad" "user" 0))
    (UserDoc.mk "i" "A" "a@b.co" "bad" "user" 0)
    (some "Alice Doe") (some "a@b.co") (some "Str0ng!Pw") none 0 0 []
  have hC := c8_no_exception_escapes cryptoT
    (fun _ s => (InsertOutcome.pyMongoError, s)) () ()
    (fun _ => FindOutcome.pyMongoError)
    (UserDoc.mk "i" "A" "a@b.co" "bad" "user" 0)
    (some "Alice Doe") (some "a@b.co") (some "Str0ng!Pw") none 0 0 []
  refine ⟨hB.1.1, hB.2.1, hA.2.2.1 (by decide) rfl, ?_, ?_, ?_, ?_, ?_⟩
  · exact hB.2.2.2.1 "hStr0ng!Pw" (by decide) rfl rfl
  · exact hC.2.2.2.2.1 "hStr0ng!Pw" (by decide) rfl rfl
  · exact ((hB.2.2.2.2.2 (by decide) (by decide)).1 rfl).trans (by decide)
  · exact ((hC.2.2.2.2.2 (by decide) (by decide)).2.1 rfl).trans (by decide)
  · exact ((hA.2.2.2.2.2 (by decide) (by decide)).2.2 rfl rfl).trans (by decide)

/-- Witness for C10: one failed login records one in-window timestamp,
bounded by the maximum. -/
theorem c10_ledger_bounded_by_max_attempts_witness :
    (("a@b.co", [(5 : Int)]) ∈ runLogins
      [{ crypto := cryptoT, find := fun _ => FindOutcome.notFound,
         email := some "a@b.co", password := some "x", identifier := none,
         now := 5 }] []) ∧
    (("a@b.co", [(5 : Int)]) : String × List Int).2.length ≤ MAX_LOGIN_ATTEMPTS := by
  refine ⟨by decide, ?_⟩
  exact c10_ledger_bounded_by_max_attempts
    [{ crypto := cryptoT, find := fun _ => FindOutcome.notFound,
       email := some "a@b.co", password := some "x", identifier := none, now := 5 }]
    ("a@b.co", [5]) (by decide)
